import Mathlib

/-!
Verification of the history-publication and catch-up subsystem of
stellar-core, embedded shallowly from the C++ sources:

  * `src/history/HistoryManagerImpl.cpp` — checkpoint arithmetic, the
    durable publish queue, bucket-reference accounting, and the publish
    pipeline driver;
  * `src/history/test/HistoryTestsUtils.cpp` — the
    `computeCatchupPerformedWork` cost-accounting computation.

Machine integers (`uint32_t`) are embedded as `Nat` with explicit
`% 2 ^ 32` at every operation where the C++ arithmetic can wrap.
Database tables are embedded as association lists; the `medida` meters
are embedded as plain counters.
-/

/-! ## Checkpoint arithmetic (HistoryManagerImpl.cpp, lines 83-116) -/

/-- `HistoryManagerImpl::getCheckpointFrequency`: 8 when
`ARTIFICIALLY_ACCELERATE_TIME_FOR_TESTING` is set, 64 otherwise. -/
def getCheckpointFrequency (accelerated : Bool) : Nat :=
  if accelerated then 8 else 64

/-- `HistoryManagerImpl::nextCheckpointLedger`: if `ledger == 0` return
`freq`, else `((ledger + freq - 1) / freq) * freq`, all in `uint32_t`
arithmetic (the sum `ledger + freq - 1` and the final product wrap at
`2 ^ 32`; for `ledger ≥ 1` the C++ wrap-around of `ledger + freq - 1`
agrees with natural subtraction followed by `% 2 ^ 32`). -/
def nextCheckpointLedger (freq ledger : Nat) : Nat :=
  if ledger = 0 then freq
  else ((ledger + freq - 1) % 2 ^ 32) / freq * freq % 2 ^ 32

/-- `HistoryManagerImpl::prevCheckpointLedger`:
`(ledger / freq) * freq` in `uint32_t` arithmetic. -/
def prevCheckpointLedger (freq ledger : Nat) : Nat :=
  ledger / freq * freq % 2 ^ 32

/-- `HistoryManagerImpl::checkpointContainingLedger`:
`nextCheckpointLedger(ledger + 1) - 1` in `uint32_t` arithmetic
(`ledger + 1` wraps at `2 ^ 32`; the final decrement is the `uint32_t`
subtraction `x - 1 = (x + 2 ^ 32 - 1) % 2 ^ 32`). -/
def checkpointContainingLedger (freq ledger : Nat) : Nat :=
  (nextCheckpointLedger freq ((ledger + 1) % 2 ^ 32) + (2 ^ 32 - 1)) % 2 ^ 32

/-- A checkpoint boundary is a positive multiple of the frequency minus
one (spec §3: "Checkpoint boundaries are multiples of F minus one"). -/
def isCheckpointBoundary (freq b : Nat) : Prop :=
  ∃ k, 1 ≤ k ∧ b + 1 = k * freq

/-! ## Snapshot descriptors and the bucket-reference index -/

/-- Modelled from the spec: `HistoryArchiveState`
(`src/history/HistoryArchive.h` is absent from the sources). Spec §3:
"Snapshot descriptor (HistoryArchiveState): immutable record of {ledger
sequence at capture time, the complete set of content-addressed
state-store file identifiers (bucket hashes) at that moment}". The
serialized text form stored in the database is abstracted away: rows
hold the descriptor itself. -/
structure HistoryArchiveState where
  currentLedger : Nat
  buckets : List String
deriving DecidableEq

/-- `HistoryArchiveState::allBuckets`: the bucket hashes referenced by
the snapshot. -/
def HistoryArchiveState.allBuckets (has : HistoryArchiveState) : List String :=
  has.buckets

/-- Look up a reference count in the bucket-reference index (an
association list from bucket hash to count); absent means count 0. -/
def bucketLookup : List (String × Nat) → String → Nat
  | [], _ => 0
  | p :: rest, b => if p.1 = b then p.2 else bucketLookup rest b

/-- Modelled from the spec: one increment step of
`PublishQueueBuckets::addBuckets` (`src/history/PublishQueueBuckets.cpp`
is absent from the sources). Spec §3: the index maps each file
identifier to a reference count. -/
def incBucket : List (String × Nat) → String → List (String × Nat)
  | [], b => [(b, 1)]
  | p :: rest, b =>
    if p.1 = b then (p.1, p.2 + 1) :: rest else p :: incBucket rest b

/-- Modelled from the spec: one decrement step of
`PublishQueueBuckets::removeBuckets`. Spec §3: "reference count reaches
zero exactly when no queued snapshot references that file, at which
point the index entry is removed". -/
def decBucket : List (String × Nat) → String → List (String × Nat)
  | [], _ => []
  | p :: rest, b =>
    if p.1 = b then (if p.2 ≤ 1 then rest else (p.1, p.2 - 1) :: rest)
    else p :: decBucket rest b

/-- Modelled from the spec: `PublishQueueBuckets::addBuckets`, merging a
snapshot's bucket set into the reference index. -/
def addBuckets (m : List (String × Nat)) (l : List String) : List (String × Nat) :=
  l.foldl incBucket m

/-- Modelled from the spec: `PublishQueueBuckets::removeBuckets`,
releasing a published snapshot's bucket set from the reference index. -/
def removeBuckets (m : List (String × Nat)) (l : List String) : List (String × Nat) :=
  l.foldl decBucket m

/-- Number of occurrences of a bucket hash in a bucket list. -/
def countOcc : List String → String → Nat
  | [], _ => 0
  | x :: xs, b => countOcc xs b + (if x = b then 1 else 0)

/-- The keys of the bucket-reference index. -/
def bucketKeys (m : List (String × Nat)) : List String :=
  m.map Prod.fst

/-! ## The durable publish queue (SQL table `publishqueue`)

`kSQLCreateStatement` declares `publishqueue (ledger INTEGER PRIMARY
KEY, state TEXT)`. The table is embedded as an association list of
rows; the `PRIMARY KEY` constraint makes `INSERT` fail (soci raises a
database error) on a duplicate ledger key. -/

/-- `INSERT INTO publishqueue (ledger, state) VALUES (:lg, :st)`:
`none` models the primary-key constraint violation (which the database
layer surfaces as a thrown exception). -/
def sqlInsert (rows : List (Nat × HistoryArchiveState)) (k : Nat)
    (v : HistoryArchiveState) : Option (List (Nat × HistoryArchiveState)) :=
  if k ∈ rows.map Prod.fst then none else some (rows ++ [(k, v)])

/-- `DELETE FROM publishqueue WHERE ledger = :lg`. -/
def sqlDelete (rows : List (Nat × HistoryArchiveState)) (k : Nat) :
    List (Nat × HistoryArchiveState) :=
  rows.filter (fun p => p.1 != k)

/-- `SELECT state FROM publishqueue ORDER BY ledger ASC LIMIT 1`:
the row with the least ledger key, if any. -/
def sqlMinRow : List (Nat × HistoryArchiveState) → Option (Nat × HistoryArchiveState)
  | [] => none
  | r :: rs =>
    match sqlMinRow rs with
    | none => some r
    | some r' => some (if r.1 ≤ r'.1 then r else r')

/-- `SELECT min(ledger) FROM publishqueue`: `none` models the SQL NULL
indicator on an empty table. -/
def sqlMinLedger : List (Nat × HistoryArchiveState) → Option Nat
  | [] => none
  | r :: rs =>
    match sqlMinLedger rs with
    | none => some r.1
    | some m => some (min r.1 m)

/-- `SELECT max(ledger) FROM publishqueue`: `none` models the SQL NULL
indicator on an empty table. -/
def sqlMaxLedger : List (Nat × HistoryArchiveState) → Option Nat
  | [] => none
  | r :: rs =>
    match sqlMaxLedger rs with
    | none => some r.1
    | some m => some (max r.1 m)

/-! ## HistoryManagerImpl state and operations -/

/-- The mutable state of `HistoryManagerImpl` relevant to publication:
the durable `publishqueue` table, the in-memory `mPublishQueueBuckets`
reference index, the active `mPublishWork` pipeline (embedded as the
snapshot it publishes), the `mPublishSuccess` / `mPublishFailure` meters
and the `mPublishQueued` counter, the `mEnqueueTimes` keys (time values
are abstracted away), and the number of `publishQueuedHistory` callbacks
posted to the main thread by `postOnMainThread`. -/
structure HistoryManagerState where
  publishqueue : List (Nat × HistoryArchiveState)
  publishQueueBuckets : List (String × Nat)
  publishWork : Option HistoryArchiveState
  publishSuccessCount : Nat
  publishFailureCount : Nat
  publishQueuedCount : Nat
  enqueueTimes : List Nat
  postedPublishCalls : Nat
deriving DecidableEq

/-- `HistoryManagerImpl::takeSnapshotAndPublish`: if `mPublishWork` is
already set, return immediately; otherwise build the three-stage
pipeline (resolve → write → put) and store it in `mPublishWork`
(embedded as the snapshot being published). -/
def takeSnapshotAndPublish (s : HistoryManagerState)
    (has : HistoryArchiveState) : HistoryManagerState :=
  if s.publishWork.isSome then s
  else { s with publishWork := some has }

/-- `HistoryManagerImpl::publishQueuedHistory`: select the queued
snapshot with the least ledger, activate publication for it, and return
1; return 0 when the queue is empty. -/
def publishQueuedHistory (s : HistoryManagerState) :
    Nat × HistoryManagerState :=
  match sqlMinRow s.publishqueue with
  | some r => (1, takeSnapshotAndPublish s r.2)
  | none => (0, s)

/-- `HistoryManagerImpl::queueCurrentHistory`: record the enqueue
timestamp (`std::map::emplace`: no-op when the key is present), then
`INSERT` the serialized snapshot into `publishqueue`; on success bump
`mPublishQueued` and merge the snapshot's buckets into
`mPublishQueueBuckets`. The second component is `true` when the insert
raised a database error (duplicate primary key), in which case the C++
exception propagates with the earlier side effects retained. -/
def queueCurrentHistory (s : HistoryManagerState)
    (has : HistoryArchiveState) : HistoryManagerState × Bool :=
  let ledger := has.currentLedger
  let s1 := { s with
    enqueueTimes :=
      if ledger ∈ s.enqueueTimes then s.enqueueTimes
      else s.enqueueTimes ++ [ledger] }
  match sqlInsert s1.publishqueue ledger has with
  | none => (s1, true)
  | some rows =>
    ({ s1 with
        publishqueue := rows
        publishQueuedCount := s1.publishQueuedCount + 1
        publishQueueBuckets := addBuckets s1.publishQueueBuckets has.allBuckets },
      false)

/-- `HistoryManagerImpl::historyPublished`: on success erase the enqueue
timestamp, mark the success meter, delete the queue row, and release the
published bucket set from the reference index; on failure mark the
failure meter only. Either way, clear `mPublishWork` and post a
`publishQueuedHistory` callback to the main thread. -/
def historyPublished (s : HistoryManagerState) (ledgerSeq : Nat)
    (originalBuckets : List String) (success : Bool) : HistoryManagerState :=
  let s1 :=
    if success then
      { s with
        enqueueTimes := s.enqueueTimes.filter (fun l => l != ledgerSeq)
        publishSuccessCount := s.publishSuccessCount + 1
        publishqueue := sqlDelete s.publishqueue ledgerSeq
        publishQueueBuckets := removeBuckets s.publishQueueBuckets originalBuckets }
    else
      { s with publishFailureCount := s.publishFailureCount + 1 }
  { s1 with
    publishWork := none
    postedPublishCalls := s1.postedPublishCalls + 1 }

/-- `HistoryManagerImpl::getMinLedgerQueuedToPublish`: the least queued
ledger, or 0 when the SQL `min` comes back NULL (empty queue). -/
def getMinLedgerQueuedToPublish (s : HistoryManagerState) : Nat :=
  match sqlMinLedger s.publishqueue with
  | some seq => seq
  | none => 0

/-- `HistoryManagerImpl::getMaxLedgerQueuedToPublish`: the greatest
queued ledger, or 0 when the SQL `max` comes back NULL (empty queue). -/
def getMaxLedgerQueuedToPublish (s : HistoryManagerState) : Nat :=
  match sqlMaxLedger s.publishqueue with
  | some seq => seq
  | none => 0

/-- `HistoryManagerImpl::publishQueueLength`:
`SELECT count(ledger) FROM publishqueue`. -/
def publishQueueLength (s : HistoryManagerState) : Nat :=
  s.publishqueue.length

/-! ## Catch-up range computation (spec §4.3) and
`CatchupSimulation::computeCatchupPerformedWork`
(HistoryTestsUtils.cpp, lines 927-964) -/

/-- `LedgerManager::GENESIS_LEDGER_SEQ`. -/
def GENESIS_LEDGER_SEQ : Nat := 1

/-- `LedgerRange` (`src/ledger/LedgerRange.h`): a first ledger and a
count of ledgers. -/
structure LedgerRange where
  mFirst : Nat
  mCount : Nat
deriving DecidableEq

/-- `CatchupRange`: the ledgers to apply plus whether bucket
restoration precedes the replay. -/
structure CatchupRange where
  mLedgers : LedgerRange
  mApplyBuckets : Bool
deriving DecidableEq

/-- `CatchupRange::getLast`: last ledger of the range,
`mFirst + mCount - 1`. -/
def CatchupRange.getLast (r : CatchupRange) : Nat :=
  r.mLedgers.mFirst + r.mLedgers.mCount - 1

/-- Modelled from the spec: the `CatchupRange` constructor
(`src/catchup` is absent from the sources). Spec §4.3: (1) if the
target is within the replay window of the last closed ledger, or the
window policy requests full replay, `applyBuckets = false` and the apply
range is `(lastClosed+1 .. target)`; (2) otherwise `applyBuckets =
true` and the apply range begins at the checkpoint boundary that starts
the replay window ending at the target — aligned so that the range
starts immediately after a checkpoint boundary, which is what makes the
verify checkpoint range extend exactly one checkpoint earlier than the
apply checkpoint range, as §4.3 requires. A window that would reach
back to (or before) the ledgers already closed locally degenerates to
case (1). -/
def mkCatchupRange (freq lastClosedLedger toLedger count : Nat) : CatchupRange :=
  if toLedger - lastClosedLedger ≤ count then
    ⟨⟨lastClosedLedger + 1, toLedger - lastClosedLedger⟩, false⟩
  else if prevCheckpointLedger freq (toLedger - count + 1) ≤ lastClosedLedger + 1 then
    ⟨⟨lastClosedLedger + 1, toLedger - lastClosedLedger⟩, false⟩
  else
    ⟨⟨prevCheckpointLedger freq (toLedger - count + 1),
      toLedger - prevCheckpointLedger freq (toLedger - count + 1) + 1⟩, true⟩

/-- `CheckpointRange` (`src/ledger/CheckpointRange.h`, absent from the
sources): first and last checkpoint plus the frequency. -/
structure CheckpointRange where
  mFirst : Nat
  mLast : Nat
  mFrequency : Nat
deriving DecidableEq

/-- Modelled from the spec: the `CheckpointRange` constructor from a
ledger range — the checkpoint span of the range, each endpoint mapped
to its containing checkpoint (spec §3/§4.3: the "first checkpoint" and
"last checkpoint" used by the verify and apply phases). -/
def mkCheckpointRange (freq first last : Nat) : CheckpointRange :=
  ⟨checkpointContainingLedger freq first,
   checkpointContainingLedger freq last, freq⟩

/-- `CheckpointRange::count`: number of checkpoints, both endpoints
inclusive, counted once when they coincide. -/
def CheckpointRange.count (r : CheckpointRange) : Nat :=
  (r.mLast - r.mFirst) / r.mFrequency + 1

/-- `CatchupPerformedWork` (history/test/HistoryTestsUtils.h): the
expected observational counter deltas of one catch-up run. -/
structure CatchupPerformedWork where
  mHistoryArchiveStatesDownloaded : Nat
  mLedgersDownloaded : Nat
  mLedgersVerified : Nat
  mLedgerChainsVerificationFailed : Nat
  mBucketsDownloaded : Bool
  mBucketsApplied : Bool
  mTransactionsDownloaded : Nat
  mTransactionsApplied : Nat
deriving DecidableEq

/-- `CatchupSimulation::computeCatchupPerformedWork`
(HistoryTestsUtils.cpp, lines 927-964): derives the expected work
counters from the `CatchupRange` and the verify/apply
`CheckpointRange`s. The history-archive-state fetch count is 1, plus 1
when buckets are applied and the verify checkpoint range's first and
last checkpoints differ. -/
def computeCatchupPerformedWork (freq lastClosedLedger toLedger count : Nat) :
    CatchupPerformedWork :=
  let catchupRange := mkCatchupRange freq lastClosedLedger toLedger count
  let verifyCheckpointRange :=
    mkCheckpointRange freq (catchupRange.mLedgers.mFirst - 1) catchupRange.getLast
  let applyCheckpointRange :=
    mkCheckpointRange freq catchupRange.mLedgers.mFirst catchupRange.getLast
  let historyArchiveStatesDownloaded :=
    if catchupRange.mApplyBuckets ∧
        verifyCheckpointRange.mFirst ≠ verifyCheckpointRange.mLast
    then 2 else 1
  let ledgersDownloaded := verifyCheckpointRange.count
  let transactionsDownloaded := applyCheckpointRange.count
  let firstVerifiedLedger :=
    max GENESIS_LEDGER_SEQ (verifyCheckpointRange.mFirst + 1 - freq)
  let ledgersVerified := toLedger - firstVerifiedLedger + 1
  let transactionsApplied := catchupRange.mLedgers.mCount
  ⟨historyArchiveStatesDownloaded, ledgersDownloaded, ledgersVerified, 0,
   catchupRange.mApplyBuckets, catchupRange.mApplyBuckets,
   transactionsDownloaded, transactionsApplied⟩

/-! ## Concrete sample states used to exercise the operations -/

/-- A sample snapshot descriptor captured at ledger 64. -/
def sampleSnapshot64 : HistoryArchiveState :=
  ⟨64, ["bucketA", "bucketB"]⟩

/-- A sample snapshot descriptor captured at ledger 128. -/
def sampleSnapshot128 : HistoryArchiveState :=
  ⟨128, ["bucketB", "bucketC"]⟩

/-- A manager state with one queued checkpoint and an active publish
pipeline. -/
def c1SampleState : HistoryManagerState :=
  ⟨[(64, sampleSnapshot64)], addBuckets [] sampleSnapshot64.allBuckets,
   some sampleSnapshot64, 0, 0, 1, [64], 0⟩

/-- A manager state with one queued checkpoint (ledger 64) and no
active publish pipeline. -/
def c5SampleState : HistoryManagerState :=
  ⟨[(64, sampleSnapshot64)], addBuckets [] sampleSnapshot64.allBuckets,
   none, 0, 0, 1, [64], 0⟩

/-- A manager state with two queued checkpoints (rows deliberately not
in key order) and no active publish pipeline. -/
def c6SampleState : HistoryManagerState :=
  ⟨[(128, sampleSnapshot128), (64, sampleSnapshot64)],
   addBuckets (addBuckets [] sampleSnapshot128.allBuckets)
     sampleSnapshot64.allBuckets,
   none, 0, 0, 2, [64, 128], 0⟩

/-- Another two-row manager state, for exercising the queue bounds. -/
def c10SampleState : HistoryManagerState :=
  ⟨[(128, sampleSnapshot128), (64, sampleSnapshot64)],
   addBuckets (addBuckets [] sampleSnapshot128.allBuckets)
     sampleSnapshot64.allBuckets,
   none, 0, 0, 2, [64, 128], 0⟩

/-- The initial state of the publish-confirmation scenario of spec §8:
exactly the snapshots for ledgers 64 and 128 queued (frequency 64),
their buckets merged into the reference index, fresh meters, and the
pipeline for ledger 64 active. -/
def confirmScenarioState (b64 b128 : List String) : HistoryManagerState :=
  ⟨[(64, ⟨64, b64⟩), (128, ⟨128, b128⟩)],
   addBuckets (addBuckets [] b64) b128,
   some ⟨64, b64⟩, 0, 0, 2, [64, 128], 0⟩

/-! ## Reference-count lemmas for the bucket index -/

theorem bucketKeys_cons (p : String × Nat) (rest : List (String × Nat)) :
    bucketKeys (p :: rest) = p.1 :: bucketKeys rest := rfl

theorem bucketLookup_eq_zero (m : List (String × Nat)) (k : String)
    (h : k ∉ bucketKeys m) : bucketLookup m k = 0 := by
  induction m with
  | nil => rfl
  | cons p rest ih =>
    rw [bucketKeys_cons, List.mem_cons, not_or] at h
    have h1 : ¬ p.1 = k := fun he => h.1 he.symm
    simp only [bucketLookup, if_neg h1]
    exact ih h.2

theorem bucketLookup_incBucket (m : List (String × Nat)) (b k : String) :
    bucketLookup (incBucket m b) k
      = bucketLookup m k + (if b = k then 1 else 0) := by
  induction m with
  | nil => simp [incBucket, bucketLookup]
  | cons p rest ih =>
    by_cases hp : p.1 = b
    · subst hp
      by_cases hk : p.1 = k
      · subst hk
        simp [incBucket, bucketLookup]
      · have hk2 : ¬ p.1 = k := hk
        simp [incBucket, bucketLookup, hk2]
    · by_cases hk : p.1 = k
      · subst hk
        have hb2 : ¬ p.1 = b := hp
        have hb3 : ¬ b = p.1 := fun he => hp he.symm
        simp [incBucket, bucketLookup, hb2, hb3]
      · simp [incBucket, bucketLookup, hp, hk, ih]

theorem bucketKeys_incBucket (m : List (String × Nat)) (b : String) :
    bucketKeys (incBucket m b)
      = if b ∈ bucketKeys m then bucketKeys m else bucketKeys m ++ [b] := by
  induction m with
  | nil => simp [incBucket, bucketKeys]
  | cons p rest ih =>
    by_cases hp : p.1 = b
    · subst hp
      simp [incBucket, bucketKeys_cons]
    · have hb3 : ¬ b = p.1 := fun he => hp he.symm
      by_cases hb : b ∈ bucketKeys rest
      · simp [incBucket, hp, bucketKeys_cons, ih, hb, hb3]
      · simp [incBucket, hp, bucketKeys_cons, ih, hb, hb3]

theorem nodup_incBucket (m : List (String × Nat)) (b : String)
    (h : (bucketKeys m).Nodup) : (bucketKeys (incBucket m b)).Nodup := by
  rw [bucketKeys_incBucket]
  by_cases hb : b ∈ bucketKeys m
  · rwa [if_pos hb]
  · rw [if_neg hb, List.nodup_append]
    refine ⟨h, List.nodup_singleton b, ?_⟩
    intro a ha hab
    rw [List.mem_singleton] at hab
    subst hab
    exact hb ha

theorem bucketKeys_decBucket_sublist (m : List (String × Nat)) (b : String) :
    (bucketKeys (decBucket m b)).Sublist (bucketKeys m) := by
  induction m with
  | nil => simp [decBucket, bucketKeys]
  | cons p rest ih =>
    by_cases hp : p.1 = b
    · by_cases h2 : p.2 ≤ 1
      · simp only [decBucket, if_pos hp, if_pos h2, bucketKeys_cons]
        exact List.sublist_cons_of_sublist _ (List.Sublist.refl _)
      · simp only [decBucket, if_pos hp, if_neg h2, bucketKeys_cons]
        exact List.Sublist.cons₂ _ (List.Sublist.refl _)
    · simp only [decBucket, if_neg hp, bucketKeys_cons]
      exact List.Sublist.cons₂ _ ih

theorem nodup_decBucket (m : List (String × Nat)) (b : String)
    (h : (bucketKeys m).Nodup) : (bucketKeys (decBucket m b)).Nodup :=
  (bucketKeys_decBucket_sublist m b).nodup h

theorem bucketLookup_decBucket (m : List (String × Nat)) (b k : String)
    (h : (bucketKeys m).Nodup) :
    bucketLookup (decBucket m b) k
      = bucketLookup m k - (if b = k then 1 else 0) := by
  induction m with
  | nil => simp [decBucket, bucketLookup]
  | cons p rest ih =>
    rw [bucketKeys_cons, List.nodup_cons] at h
    by_cases hp : p.1 = b
    · subst hp
      by_cases hk : p.1 = k
      · subst hk
        by_cases h2 : p.2 ≤ 1
        · simp [decBucket, bucketLookup, h2, bucketLookup_eq_zero rest p.1 h.1]
        · simp [decBucket, bucketLookup, h2]
      · have hk2 : ¬ p.1 = k := hk
        by_cases h2 : p.2 ≤ 1
        · simp [decBucket, bucketLookup, h2, hk2]
        · simp [decBucket, bucketLookup, h2, hk2]
    · by_cases hk : p.1 = k
      · subst hk
        have hb3 : ¬ b = p.1 := fun he => hp he.symm
        simp [decBucket, bucketLookup, hp, hb3]
      · simp [decBucket, bucketLookup, hp, hk, ih h.2]

theorem nodup_addBuckets (l : List String) (m : List (String × Nat))
    (h : (bucketKeys m).Nodup) : (bucketKeys (addBuckets m l)).Nodup := by
  induction l generalizing m with
  | nil => exact h
  | cons x xs ih => exact ih _ (nodup_incBucket m x h)

theorem bucketLookup_addBuckets (l : List String) (m : List (String × Nat))
    (k : String) :
    bucketLookup (addBuckets m l) k = bucketLookup m k + countOcc l k := by
  induction l generalizing m with
  | nil => rfl
  | cons x xs ih =>
    show bucketLookup (addBuckets (incBucket m x) xs) k = _
    rw [ih, bucketLookup_incBucket, countOcc]
    omega

theorem bucketLookup_removeBuckets (l : List String) (m : List (String × Nat))
    (k : String) (h : (bucketKeys m).Nodup) :
    bucketLookup (removeBuckets m l) k = bucketLookup m k - countOcc l k := by
  induction l generalizing m with
  | nil => rfl
  | cons x xs ih =>
    show bucketLookup (removeBuckets (decBucket m x) xs) k = _
    rw [ih _ (nodup_decBucket m x h), bucketLookup_decBucket m x k h, countOcc]
    omega

/-! ## Lemmas about the publish-queue SQL queries -/

theorem sqlMinRow_eq_none_iff (rows : List (Nat × HistoryArchiveState)) :
    sqlMinRow rows = none ↔ rows = [] := by
  cases rows with
  | nil => simp [sqlMinRow]
  | cons r rs =>
    constructor
    · intro h
      exfalso
      rw [sqlMinRow] at h
      cases hm : sqlMinRow rs with
      | none => rw [hm] at h; exact Option.noConfusion h
      | some r' => rw [hm] at h; exact Option.noConfusion h
    · intro h
      exact List.noConfusion h

theorem sqlMinRow_mem (rows : List (Nat × HistoryArchiveState)) :
    ∀ r, sqlMinRow rows = some r → r ∈ rows := by
  induction rows with
  | nil => intro r h; exact Option.noConfusion h
  | cons a rs ih =>
    intro r h
    rw [sqlMinRow] at h
    cases hm : sqlMinRow rs with
    | none =>
      rw [hm] at h
      rw [Option.some_inj] at h
      rw [← h]
      exact List.mem_cons_self a rs
    | some r' =>
      rw [hm, Option.some_inj] at h
      by_cases hle : a.1 ≤ r'.1
      · rw [if_pos hle] at h
        rw [← h]
        exact List.mem_cons_self a rs
      · rw [if_neg hle] at h
        rw [← h]
        exact List.mem_cons_of_mem a (ih r' hm)

theorem sqlMinRow_le (rows : List (Nat × HistoryArchiveState)) :
    ∀ r, sqlMinRow rows = some r → ∀ p ∈ rows, r.1 ≤ p.1 := by
  induction rows with
  | nil => intro r h; exact Option.noConfusion h
  | cons a rs ih =>
    intro r h
    rw [sqlMinRow] at h
    intro p hp
    rw [List.mem_cons] at hp
    cases hm : sqlMinRow rs with
    | none =>
      rw [hm, Option.some_inj] at h
      have hrs : rs = [] := (sqlMinRow_eq_none_iff rs).1 hm
      rcases hp with hpa | hprs
      · rw [← h, hpa]
      · rw [hrs] at hprs
        exact absurd hprs (List.not_mem_nil p)
    | some r' =>
      rw [hm, Option.some_inj] at h
      by_cases hle : a.1 ≤ r'.1
      · rw [if_pos hle] at h
        rcases hp with hpa | hprs
        · rw [← h, hpa]
        · rw [← h]
          exact Nat.le_trans hle (ih r' hm p hprs)
      · rw [if_neg hle] at h
        rcases hp with hpa | hprs
        · rw [← h, hpa]
          omega
        · rw [← h]
          exact ih r' hm p hprs

theorem sqlMinLedger_eq_none_iff (rows : List (Nat × HistoryArchiveState)) :
    sqlMinLedger rows = none ↔ rows = [] := by
  cases rows with
  | nil => simp [sqlMinLedger]
  | cons r rs =>
    constructor
    · intro h
      exfalso
      rw [sqlMinLedger] at h
      cases hm : sqlMinLedger rs with
      | none => rw [hm] at h; exact Option.noConfusion h
      | some m => rw [hm] at h; exact Option.noConfusion h
    · intro h
      exact List.noConfusion h

theorem sqlMinLedger_spec (rows : List (Nat × HistoryArchiveState)) :
    ∀ v, sqlMinLedger rows = some v →
      (∃ p ∈ rows, v = p.1) ∧ ∀ p ∈ rows, v ≤ p.1 := by
  induction rows with
  | nil => intro v h; exact Option.noConfusion h
  | cons a rs ih =>
    intro v h
    rw [sqlMinLedger] at h
    cases hm : sqlMinLedger rs with
    | none =>
      rw [hm, Option.some_inj] at h
      have hrs : rs = [] := (sqlMinLedger_eq_none_iff rs).1 hm
      subst hrs
      refine ⟨⟨a, List.mem_cons_self a [], h.symm⟩, ?_⟩
      intro p hp
      rw [List.mem_cons] at hp
      rcases hp with hpa | hprs
      · rw [← h, hpa]
      · exact absurd hprs (List.not_mem_nil p)
    | some m =>
      rw [hm, Option.some_inj] at h
      obtain ⟨⟨q, hq, hqv⟩, hall⟩ := ih m hm
      constructor
      · by_cases hle : a.1 ≤ m
        · exact ⟨a, List.mem_cons_self a rs, by omega⟩
        · exact ⟨q, List.mem_cons_of_mem a hq, by omega⟩
      · intro p hp
        rw [List.mem_cons] at hp
        rcases hp with hpa | hprs
        · rw [hpa] at *
          omega
        · have := hall p hprs
          omega

theorem sqlMaxLedger_eq_none_iff (rows : List (Nat × HistoryArchiveState)) :
    sqlMaxLedger rows = none ↔ rows = [] := by
  cases rows with
  | nil => simp [sqlMaxLedger]
  | cons r rs =>
    constructor
    · intro h
      exfalso
      rw [sqlMaxLedger] at h
      cases hm : sqlMaxLedger rs with
      | none => rw [hm] at h; exact Option.noConfusion h
      | some m => rw [hm] at h; exact Option.noConfusion h
    · intro h
      exact List.noConfusion h

theorem sqlMaxLedger_spec (rows : List (Nat × HistoryArchiveState)) :
    ∀ v, sqlMaxLedger rows = some v →
      (∃ p ∈ rows, v = p.1) ∧ ∀ p ∈ rows, p.1 ≤ v := by
  induction rows with
  | nil => intro v h; exact Option.noConfusion h
  | cons a rs ih =>
    intro v h
    rw [sqlMaxLedger] at h
    cases hm : sqlMaxLedger rs with
    | none =>
      rw [hm, Option.some_inj] at h
      have hrs : rs = [] := (sqlMaxLedger_eq_none_iff rs).1 hm
      subst hrs
      refine ⟨⟨a, List.mem_cons_self a [], h.symm⟩, ?_⟩
      intro p hp
      rw [List.mem_cons] at hp
      rcases hp with hpa | hprs
      · rw [← h, hpa]
      · exact absurd hprs (List.not_mem_nil p)
    | some m =>
      rw [hm, Option.some_inj] at h
      obtain ⟨⟨q, hq, hqv⟩, hall⟩ := ih m hm
      constructor
      · by_cases hle : a.1 ≤ m
        · exact ⟨q, List.mem_cons_of_mem a hq, by omega⟩
        · exact ⟨a, List.mem_cons_self a rs, by omega⟩
      · intro p hp
        rw [List.mem_cons] at hp
        rcases hp with hpa | hprs
        · rw [hpa] at *
          omega
        · have := hall p hprs
          omega

/-! ## In-range characterizations of the checkpoint arithmetic -/

theorem nextCheckpointLedger_eq_of_le (freq ledger : Nat) (h0 : ledger ≠ 0)
    (h : ledger + freq ≤ 2 ^ 32) :
    nextCheckpointLedger freq ledger = (ledger + freq - 1) / freq * freq := by
  unfold nextCheckpointLedger
  rw [if_neg h0]
  have h1 : ledger + freq - 1 < 2 ^ 32 := by omega
  rw [Nat.mod_eq_of_lt h1]
  exact Nat.mod_eq_of_lt (Nat.lt_of_le_of_lt (Nat.div_mul_le_self _ _) h1)

theorem checkpointContainingLedger_eq_of_lt (freq ledger : Nat) (hf : 0 < freq)
    (h : ledger + freq < 2 ^ 32) :
    checkpointContainingLedger freq ledger = (ledger + freq) / freq * freq - 1 := by
  unfold checkpointContainingLedger
  have h1 : (ledger + 1) % 2 ^ 32 = ledger + 1 := Nat.mod_eq_of_lt (by omega)
  rw [h1, nextCheckpointLedger_eq_of_le freq (ledger + 1) (by omega) (by omega)]
  have he : ledger + 1 + freq - 1 = ledger + freq := by omega
  rw [he]
  have hq1 : 1 ≤ (ledger + freq) / freq := (Nat.one_le_div_iff hf).2 (by omega)
  have hqf : (ledger + freq) / freq * freq ≤ ledger + freq := Nat.div_mul_le_self _ _
  have hpos : 1 ≤ (ledger + freq) / freq * freq :=
    Nat.le_trans hf (Nat.le_mul_of_pos_left freq hq1)
  have hsplit : (ledger + freq) / freq * freq + (2 ^ 32 - 1)
      = ((ledger + freq) / freq * freq - 1) + 2 ^ 32 := by omega
  rw [hsplit, Nat.add_mod_right]
  exact Nat.mod_eq_of_lt (by omega)

/-- The would-be checkpoint boundary `(L + F) / F * F - 1` is at least `L`. -/
theorem le_ceil_boundary (freq ledger : Nat) (hf : 0 < freq) :
    ledger + 1 ≤ (ledger + freq) / freq * freq := by
  have h2 := Nat.lt_div_mul_add (a := ledger + freq) hf
  omega

theorem checkpointContainingLedger_mono (freq a b : Nat) (hf : 0 < freq)
    (hb : b + freq < 2 ^ 32) (hab : a ≤ b) :
    checkpointContainingLedger freq a ≤ checkpointContainingLedger freq b := by
  rw [checkpointContainingLedger_eq_of_lt freq a hf (by omega),
    checkpointContainingLedger_eq_of_lt freq b hf hb]
  have h1 : (a + freq) / freq ≤ (b + freq) / freq :=
    Nat.div_le_div_right (by omega)
  have h2 : (a + freq) / freq * freq ≤ (b + freq) / freq * freq :=
    Nat.mul_le_mul_right freq h1
  omega

/-! ## Claims C3, C7, C8, C9: checkpoint arithmetic -/

/-- Claim C7, amended: `checkpointContainingLedger` is idempotent away
from the top of the `uint32_t` range (`L + 2F < 2 ^ 32`). (As stated
for every `L` the claim fails: at `L = 2 ^ 32 - 2` the arithmetic
wraps, see the counterexample.) -/
theorem checkpointContaining_idem (freq ledger : Nat) (hf : 0 < freq)
    (h : ledger + 2 * freq < 2 ^ 32) :
    checkpointContainingLedger freq (checkpointContainingLedger freq ledger)
      = checkpointContainingLedger freq ledger := by
  have h1 : ledger + freq < 2 ^ 32 := by omega
  have hcc := checkpointContainingLedger_eq_of_lt freq ledger hf h1
  have hle := le_ceil_boundary freq ledger hf
  have hub : (ledger + freq) / freq * freq ≤ ledger + freq :=
    Nat.div_mul_le_self _ _
  set q := (ledger + freq) / freq with hq
  have h2 : checkpointContainingLedger freq (q * freq - 1) = q * freq - 1 := by
    have h3 := checkpointContainingLedger_eq_of_lt freq (q * freq - 1) hf (by omega)
    have h4 : q * freq - 1 + freq = freq * q + (freq - 1) := by
      rw [Nat.mul_comm freq q]
      omega
    rw [h3, h4, Nat.mul_add_div hf, Nat.div_eq_of_lt (by omega), Nat.add_zero,
      Nat.mul_comm]
  rw [hcc]
  exact h2

/-- Claim C7 witness at `L = 100`, `F = 64`. -/
theorem checkpointContaining_idem_witness :
    checkpointContainingLedger 64 (checkpointContainingLedger 64 100)
      = checkpointContainingLedger 64 100 :=
  checkpointContaining_idem 64 100 (by norm_num) (by norm_num)

/-- Claim C7 counterexample: at `L = 2 ^ 32 - 2`, `F = 64`, the
`uint32_t` arithmetic wraps (`checkpointContainingLedger` returns
`2 ^ 32 - 1`, whose own containing checkpoint wraps to 63), so
idempotence fails. -/
theorem checkpointContaining_idem_cex :
    checkpointContainingLedger 64 (checkpointContainingLedger 64 (2 ^ 32 - 2))
      ≠ checkpointContainingLedger 64 (2 ^ 32 - 2) := by decide

/-- Claim C8, amended: `prevCheckpointLedger (nextCheckpointLedger L)`
equals `nextCheckpointLedger L` (the next multiple of the frequency),
and the checkpoint containing that ledger is ≥ the checkpoint
containing `L` (no overflow assumed: `L + 2F < 2 ^ 32`). The claim as
stated — that the value itself is a checkpoint boundary ≥
`checkpointContainingLedger L` — is false, see the counterexample. -/
theorem prev_next_checkpoint (freq ledger : Nat) (hf : 0 < freq)
    (h : ledger + 2 * freq < 2 ^ 32) :
    prevCheckpointLedger freq (nextCheckpointLedger freq ledger)
        = nextCheckpointLedger freq ledger
    ∧ checkpointContainingLedger freq ledger
        ≤ checkpointContainingLedger freq
            (prevCheckpointLedger freq (nextCheckpointLedger freq ledger)) := by
  by_cases h0 : ledger = 0
  · subst h0
    have hnext : nextCheckpointLedger freq 0 = freq := by
      rw [nextCheckpointLedger, if_pos rfl]
    have hprev : prevCheckpointLedger freq freq = freq := by
      rw [prevCheckpointLedger, Nat.div_self hf, Nat.one_mul,
        Nat.mod_eq_of_lt (by omega)]
    rw [hnext, hprev]
    exact ⟨rfl, checkpointContainingLedger_mono freq 0 freq hf (by omega) (by omega)⟩
  · have hnext := nextCheckpointLedger_eq_of_le freq ledger h0 (by omega)
    set q := (ledger + freq - 1) / freq with hqdef
    have hub : q * freq ≤ ledger + freq - 1 := Nat.div_mul_le_self _ _
    have hlow := Nat.lt_div_mul_add (a := ledger + freq - 1) hf
    rw [← hqdef] at hlow
    have hdivq : q * freq / freq = q := Nat.mul_div_cancel q hf
    have hprev : prevCheckpointLedger freq (q * freq) = q * freq := by
      rw [prevCheckpointLedger, hdivq, Nat.mod_eq_of_lt (by omega)]
    rw [hnext, hprev]
    refine ⟨rfl, ?_⟩
    exact checkpointContainingLedger_mono freq ledger (q * freq) hf (by omega) (by omega)

/-- Claim C8 witness at `L = 100`, `F = 64`. -/
theorem prev_next_checkpoint_witness :
    prevCheckpointLedger 64 (nextCheckpointLedger 64 100)
        = nextCheckpointLedger 64 100
    ∧ checkpointContainingLedger 64 100
        ≤ checkpointContainingLedger 64
            (prevCheckpointLedger 64 (nextCheckpointLedger 64 100)) :=
  prev_next_checkpoint 64 100 (by norm_num) (by norm_num)

/-- Claim C8 counterexample: at `L = 64`, `F = 64`,
`prevCheckpointLedger (nextCheckpointLedger 64) = 64`, which is neither
a checkpoint boundary nor ≥ the boundary containing 64 (which is
127). -/
theorem prev_next_checkpoint_cex :
    prevCheckpointLedger 64 (nextCheckpointLedger 64 64) = 64
    ∧ checkpointContainingLedger 64 64 = 127
    ∧ ¬ (checkpointContainingLedger 64 64
          ≤ prevCheckpointLedger 64 (nextCheckpointLedger 64 64))
    ∧ ¬ isCheckpointBoundary 64
          (prevCheckpointLedger 64 (nextCheckpointLedger 64 64)) := by
  refine ⟨by decide, by decide, by decide, ?_⟩
  intro hb
  obtain ⟨k, hk1, hk2⟩ := hb
  rw [show prevCheckpointLedger 64 (nextCheckpointLedger 64 64) = 64 from by decide] at hk2
  omega

/-- Claim C9: the checkpoint arithmetic is `uint32_t` and wraps at the
top of the range: for `L = 2 ^ 32 - 1` and any frequency (both
production values 8 and 64 qualify), `checkpointContainingLedger`
evaluates `ledger + 1` modulo `2 ^ 32` and returns `F - 1`, which is
smaller than `L`. -/
theorem checkpointContaining_uint32_wrap (freq : Nat) (hf : 0 < freq)
    (hlt : freq < 2 ^ 32) :
    checkpointContainingLedger freq (2 ^ 32 - 1) = freq - 1
    ∧ freq - 1 < 2 ^ 32 - 1 := by
  constructor
  · rw [checkpointContainingLedger]
    have h1 : (2 ^ 32 - 1 + 1) % 2 ^ 32 = 0 := by norm_num
    rw [h1, nextCheckpointLedger, if_pos rfl]
    have h2 : freq + (2 ^ 32 - 1) = (freq - 1) + 2 ^ 32 := by omega
    rw [h2, Nat.add_mod_right]
    exact Nat.mod_eq_of_lt (by omega)
  · omega

/-- Claim C9 witness at the production frequency `F = 64`. -/
theorem checkpointContaining_uint32_wrap_witness :
    checkpointContainingLedger 64 (2 ^ 32 - 1) = 64 - 1
    ∧ 64 - 1 < 2 ^ 32 - 1 :=
  checkpointContaining_uint32_wrap 64 (by norm_num) (by norm_num)

/-! ## Claims C1, C2, C5, C6, C10: the publish queue -/

/-- Claim C1: at most one publish pipeline is active at any time — when
`mPublishWork` is set, `takeSnapshotAndPublish` is a no-op and leaves
the whole manager state (queue, bucket index, counters, active work)
unchanged. -/
theorem takeSnapshotAndPublish_noop (s : HistoryManagerState)
    (has w : HistoryArchiveState) (h : s.publishWork = some w) :
    takeSnapshotAndPublish s has = s := by
  simp [takeSnapshotAndPublish, h]

/-- Claim C1 witness: a state with an active pipeline is returned
unchanged. -/
theorem takeSnapshotAndPublish_noop_witness :
    c1SampleState.publishWork = some sampleSnapshot64
    ∧ takeSnapshotAndPublish c1SampleState sampleSnapshot128 = c1SampleState :=
  ⟨rfl, takeSnapshotAndPublish_noop c1SampleState sampleSnapshot128
    sampleSnapshot64 rfl⟩

/-- Claim C2: starting from a queue holding exactly the snapshots for
ledgers 64 and 128, confirming ledger 64 as failed and then as
succeeded leaves only the entry for 128, with success meter 1 and
failure meter 1; the failure call leaves the queue row and the bucket
index unchanged, and the success call deletes the row and removes the
published bucket set from the index (the resulting index counts exactly
the buckets of the remaining snapshot). -/
theorem historyPublished_fail_then_success (b64 b128 : List String) :
    (historyPublished (confirmScenarioState b64 b128) 64 b64 false).publishqueue
        = (confirmScenarioState b64 b128).publishqueue
    ∧ (historyPublished (confirmScenarioState b64 b128) 64 b64
        false).publishQueueBuckets
        = (confirmScenarioState b64 b128).publishQueueBuckets
    ∧ (historyPublished (confirmScenarioState b64 b128) 64 b64
        false).publishFailureCount = 1
    ∧ (historyPublished (confirmScenarioState b64 b128) 64 b64
        false).publishSuccessCount = 0
    ∧ (historyPublished (historyPublished (confirmScenarioState b64 b128) 64 b64
        false) 64 b64 true).publishqueue = [(128, ⟨128, b128⟩)]
    ∧ (historyPublished (historyPublished (confirmScenarioState b64 b128) 64 b64
        false) 64 b64 true).publishSuccessCount = 1
    ∧ (historyPublished (historyPublished (confirmScenarioState b64 b128) 64 b64
        false) 64 b64 true).publishFailureCount = 1
    ∧ ∀ k, bucketLookup (historyPublished (historyPublished
        (confirmScenarioState b64 b128) 64 b64 false) 64 b64
        true).publishQueueBuckets k = bucketLookup (addBuckets [] b128) k := by
  refine ⟨rfl, rfl, rfl, rfl, ?_, rfl, rfl, ?_⟩
  · show sqlDelete [(64, ⟨64, b64⟩), (128, ⟨128, b128⟩)] 64 = [(128, ⟨128, b128⟩)]
    rw [sqlDelete]
    rfl
  · intro k
    have hnd : (bucketKeys (addBuckets (addBuckets [] b64) b128)).Nodup :=
      nodup_addBuckets b128 _ (nodup_addBuckets b64 [] List.nodup_nil)
    show bucketLookup
        (removeBuckets (addBuckets (addBuckets [] b64) b128) b64) k = _
    rw [bucketLookup_removeBuckets b64 _ k hnd,
      bucketLookup_addBuckets b128 _ k, bucketLookup_addBuckets b64 [] k,
      bucketLookup_addBuckets b128 [] k]
    show bucketLookup [] k + countOcc b64 k + countOcc b128 k - countOcc b64 k
        = bucketLookup [] k + countOcc b128 k
    omega

/-- Claim C5, amended: enqueueing a snapshot for a ledger that already
has a queue entry fails via the primary-key constraint — the database
layer raises an error (the C++ exception propagates) — and no second
entry is inserted; the queue, bucket index, queued counter and active
work are unchanged. (The claim's "does not raise an exception" is
false, see the counterexample.) -/
theorem queueCurrentHistory_duplicate (s : HistoryManagerState)
    (has : HistoryArchiveState)
    (h : has.currentLedger ∈ s.publishqueue.map Prod.fst) :
    (queueCurrentHistory s has).2 = true
    ∧ (queueCurrentHistory s has).1.publishqueue = s.publishqueue
    ∧ (queueCurrentHistory s has).1.publishQueueBuckets = s.publishQueueBuckets
    ∧ (queueCurrentHistory s has).1.publishQueuedCount = s.publishQueuedCount
    ∧ (queueCurrentHistory s has).1.publishWork = s.publishWork := by
  simp [queueCurrentHistory, sqlInsert, h]

/-- Claim C5 witness: the duplicate-enqueue behaviour at a concrete
state with ledger 64 already queued. -/
theorem queueCurrentHistory_duplicate_witness :
    sampleSnapshot64.currentLedger ∈ c5SampleState.publishqueue.map Prod.fst
    ∧ (queueCurrentHistory c5SampleState sampleSnapshot64).2 = true
    ∧ (queueCurrentHistory c5SampleState sampleSnapshot64).1.publishqueue
        = c5SampleState.publishqueue := by
  refine ⟨by decide, ?_, ?_⟩
  · exact (queueCurrentHistory_duplicate c5SampleState sampleSnapshot64
      (by decide)).1
  · exact (queueCurrentHistory_duplicate c5SampleState sampleSnapshot64
      (by decide)).2.1

/-- Claim C5 counterexample: with ledger 64 already queued, enqueueing
another snapshot at ledger 64 raises the database error — refuting the
claim that the failure is logical and no exception is raised. -/
theorem queueCurrentHistory_duplicate_cex :
    64 ∈ c5SampleState.publishqueue.map Prod.fst
    ∧ (queueCurrentHistory c5SampleState sampleSnapshot64).2 = true := by
  exact ⟨by decide, rfl⟩

/-- Claim C6: with no pipeline active, `publishQueuedHistory` drains
the queue in ascending ledger order — on an empty queue it activates
nothing and returns 0; otherwise it activates publication for exactly
the entry with the least ledger sequence and returns 1. -/
theorem publishQueuedHistory_drains_min (s : HistoryManagerState)
    (hw : s.publishWork = none) :
    (s.publishqueue = [] → publishQueuedHistory s = (0, s))
    ∧ ∀ l has, sqlMinRow s.publishqueue = some (l, has) →
        ((l, has) ∈ s.publishqueue
         ∧ (∀ p ∈ s.publishqueue, l ≤ p.1)
         ∧ publishQueuedHistory s = (1, { s with publishWork := some has })) := by
  constructor
  · intro he
    simp [publishQueuedHistory, (sqlMinRow_eq_none_iff s.publishqueue).2 he]
  · intro l has hm
    refine ⟨sqlMinRow_mem _ _ hm, sqlMinRow_le _ _ hm, ?_⟩
    simp [publishQueuedHistory, hm, takeSnapshotAndPublish, hw]

/-- Claim C6 witness: on a two-row queue stored out of order, the drain
activates the ledger-64 entry (the minimum) and returns 1. -/
theorem publishQueuedHistory_drains_min_witness :
    sqlMinRow c6SampleState.publishqueue = some (64, sampleSnapshot64)
    ∧ (64, sampleSnapshot64) ∈ c6SampleState.publishqueue
    ∧ (∀ p ∈ c6SampleState.publishqueue, 64 ≤ p.1)
    ∧ publishQueuedHistory c6SampleState
        = (1, { c6SampleState with publishWork := some sampleSnapshot64 }) := by
  have h := (publishQueuedHistory_drains_min c6SampleState rfl).2 64
    sampleSnapshot64 rfl
  exact ⟨rfl, h.1, h.2.1, h.2.2⟩

/-- Claim C10: `getMinLedgerQueuedToPublish` and
`getMaxLedgerQueuedToPublish` return 0 on an empty queue (no option or
error to signal absence), and otherwise the minimum, respectively
maximum, queued ledger sequence. -/
theorem queue_min_max_bounds (s : HistoryManagerState) :
    (s.publishqueue = [] →
      getMinLedgerQueuedToPublish s = 0 ∧ getMaxLedgerQueuedToPublish s = 0)
    ∧ (s.publishqueue ≠ [] →
        ((∃ p ∈ s.publishqueue, getMinLedgerQueuedToPublish s = p.1)
         ∧ (∀ p ∈ s.publishqueue, getMinLedgerQueuedToPublish s ≤ p.1)
         ∧ (∃ p ∈ s.publishqueue, getMaxLedgerQueuedToPublish s = p.1)
         ∧ (∀ p ∈ s.publishqueue, p.1 ≤ getMaxLedgerQueuedToPublish s))) := by
  constructor
  · intro he
    constructor
    · simp [getMinLedgerQueuedToPublish, (sqlMinLedger_eq_none_iff _).2 he]
    · simp [getMaxLedgerQueuedToPublish, (sqlMaxLedger_eq_none_iff _).2 he]
  · intro hne
    cases hmin : sqlMinLedger s.publishqueue with
    | none => exact absurd ((sqlMinLedger_eq_none_iff _).1 hmin) hne
    | some v =>
      cases hmax : sqlMaxLedger s.publishqueue with
      | none => exact absurd ((sqlMaxLedger_eq_none_iff _).1 hmax) hne
      | some w =>
        obtain ⟨⟨p, hp, hvp⟩, hall⟩ := sqlMinLedger_spec _ v hmin
        obtain ⟨⟨q, hq, hwq⟩, hall2⟩ := sqlMaxLedger_spec _ w hmax
        have hminval : getMinLedgerQueuedToPublish s = v := by
          simp [getMinLedgerQueuedToPublish, hmin]
        have hmaxval : getMaxLedgerQueuedToPublish s = w := by
          simp [getMaxLedgerQueuedToPublish, hmax]
        rw [hminval, hmaxval]
        exact ⟨⟨p, hp, hvp⟩, hall, ⟨q, hq, hwq⟩, hall2⟩

/-- Claim C10 witness: on a concrete two-row queue the reported bounds
are attained and bounding. -/
theorem queue_min_max_bounds_witness :
    c10SampleState.publishqueue ≠ []
    ∧ ((∃ p ∈ c10SampleState.publishqueue,
          getMinLedgerQueuedToPublish c10SampleState = p.1)
       ∧ (∀ p ∈ c10SampleState.publishqueue,
          getMinLedgerQueuedToPublish c10SampleState ≤ p.1)
       ∧ (∃ p ∈ c10SampleState.publishqueue,
          getMaxLedgerQueuedToPublish c10SampleState = p.1)
       ∧ (∀ p ∈ c10SampleState.publishqueue,
          p.1 ≤ getMaxLedgerQueuedToPublish c10SampleState)) :=
  ⟨List.cons_ne_nil _ _,
   (queue_min_max_bounds c10SampleState).2 (List.cons_ne_nil _ _)⟩

/-! ## Claim C4: history-archive-state fetch accounting -/

/-- Unfolding of the fetch counter inside
`computeCatchupPerformedWork`: 2 when buckets are applied and the
verify checkpoint range's endpoints differ, else 1. -/
theorem computeCatchupPerformedWork_has_fetches (freq lcl target count : Nat) :
    (computeCatchupPerformedWork freq lcl target count).mHistoryArchiveStatesDownloaded
      = if (mkCatchupRange freq lcl target count).mApplyBuckets
            ∧ (mkCheckpointRange freq
                ((mkCatchupRange freq lcl target count).mLedgers.mFirst - 1)
                (mkCatchupRange freq lcl target count).getLast).mFirst
              ≠ (mkCheckpointRange freq
                  ((mkCatchupRange freq lcl target count).mLedgers.mFirst - 1)
                  (mkCatchupRange freq lcl target count).getLast).mLast
        then 2 else 1 := rfl

/-- Claim C4, amended: away from the top of the `uint32_t` range
(`target + 2F < 2 ^ 32`), the number of history-archive-state fetches
computed by `computeCatchupPerformedWork` is exactly 1, plus 1 more if
and only if bucket restoration is needed and the verify checkpoint
range differs from the apply checkpoint range. (`CatchupRange` and
`CheckpointRange` are modelled from the spec, §4.3.) As stated for
every catch-up computation the claim fails: near `2 ^ 32` the wrap of
`checkpointContainingLedger` can collapse the verify range's endpoints
while the verify and apply ranges still differ, see the
counterexample. -/
theorem catchup_archive_state_fetch_count (freq lcl target count : Nat)
    (hf : 0 < freq) (hcount : 1 ≤ count)
    (hbound : target + 2 * freq < 2 ^ 32) :
    (computeCatchupPerformedWork freq lcl target count).mHistoryArchiveStatesDownloaded
      = 1 + (if (mkCatchupRange freq lcl target count).mApplyBuckets
                ∧ mkCheckpointRange freq
                    ((mkCatchupRange freq lcl target count).mLedgers.mFirst - 1)
                    (mkCatchupRange freq lcl target count).getLast
                  ≠ mkCheckpointRange freq
                      (mkCatchupRange freq lcl target count).mLedgers.mFirst
                      (mkCatchupRange freq lcl target count).getLast
             then 1 else 0) := by
  rw [computeCatchupPerformedWork_has_fetches]
  by_cases hb1 : target - lcl ≤ count
  · have hr : mkCatchupRange freq lcl target count
        = ⟨⟨lcl + 1, target - lcl⟩, false⟩ := by
      rw [mkCatchupRange, if_pos hb1]
    rw [hr]
    simp
  · by_cases hb2 : prevCheckpointLedger freq (target - count + 1) ≤ lcl + 1
    · have hr : mkCatchupRange freq lcl target count
          = ⟨⟨lcl + 1, target - lcl⟩, false⟩ := by
        rw [mkCatchupRange, if_neg hb1, if_pos hb2]
      rw [hr]
      simp
    · have hq : prevCheckpointLedger freq (target - count + 1)
          = (target - count + 1) / freq * freq := by
        rw [prevCheckpointLedger]
        exact Nat.mod_eq_of_lt
          (Nat.lt_of_le_of_lt (Nat.div_mul_le_self _ _) (by omega))
      have hr : mkCatchupRange freq lcl target count
          = ⟨⟨(target - count + 1) / freq * freq,
              target - (target - count + 1) / freq * freq + 1⟩, true⟩ := by
        rw [mkCatchupRange, if_neg hb1, if_neg hb2, hq]
      rw [hq] at hb2
      set q := (target - count + 1) / freq with hqdef
      have hub : q * freq ≤ target - count + 1 := Nat.div_mul_le_self _ _
      have hqf2 : 2 ≤ q * freq := by omega
      have hqft : q * freq ≤ target := by omega
      have hlast : (⟨⟨q * freq, target - q * freq + 1⟩, true⟩ :
          CatchupRange).getLast = target := by
        rw [CatchupRange.getLast]
        show q * freq + (target - q * freq + 1) - 1 = target
        omega
      have hccm1 : checkpointContainingLedger freq (q * freq - 1)
          = q * freq - 1 := by
        have h5 := checkpointContainingLedger_eq_of_lt freq (q * freq - 1) hf
          (by omega)
        have h6 : q * freq - 1 + freq = freq * q + (freq - 1) := by
          rw [Nat.mul_comm freq q]
          omega
        rw [h5, h6, Nat.mul_add_div hf, Nat.div_eq_of_lt (by omega),
          Nat.add_zero, Nat.mul_comm]
      have hccF0 : checkpointContainingLedger freq (q * freq)
          = q * freq + freq - 1 := by
        have h7 := checkpointContainingLedger_eq_of_lt freq (q * freq) hf
          (by omega)
        have h8 : q * freq + freq = freq * (q + 1) := by
          rw [Nat.mul_succ, Nat.mul_comm freq q]
        rw [h7, h8, Nat.mul_div_cancel_left (q + 1) hf, Nat.succ_mul, ← h8]
      have hmono := checkpointContainingLedger_mono freq (q * freq) target hf
        (by omega) hqft
      rw [hccF0] at hmono
      rw [hr, hlast]
      have hvfirst : (mkCheckpointRange freq (q * freq - 1) target).mFirst
          = q * freq - 1 := by
        rw [mkCheckpointRange]
        exact hccm1
      have hvlast : (mkCheckpointRange freq (q * freq - 1) target).mLast
          = checkpointContainingLedger freq target := by
        rw [mkCheckpointRange]
      have hafirst : (mkCheckpointRange freq (q * freq) target).mFirst
          = q * freq + freq - 1 := by
        rw [mkCheckpointRange]
        exact hccF0
      have hcond1 : (mkCheckpointRange freq (q * freq - 1) target).mFirst
          ≠ (mkCheckpointRange freq (q * freq - 1) target).mLast := by
        rw [hvfirst, hvlast]
        omega
      have hcond2 : mkCheckpointRange freq (q * freq - 1) target
          ≠ mkCheckpointRange freq (q * freq) target := by
        intro heq
        have := congrArg CheckpointRange.mFirst heq
        rw [hvfirst, hafirst] at this
        omega
      show (if (true = true) ∧ _ then 2 else 1) = 1 + (if (true = true) ∧ _ then 1 else 0)
      rw [if_pos ⟨rfl, hcond1⟩, if_pos ⟨rfl, hcond2⟩]

/-- Claim C4 witness at the spec §8 catch-up example: frequency 64,
last closed ledger 63, target 200, replay window 64 — buckets are
applied and two archive-state fetches are accounted. -/
theorem catchup_archive_state_fetch_count_witness :
    (computeCatchupPerformedWork 64 63 200 64).mHistoryArchiveStatesDownloaded
      = 1 + (if (mkCatchupRange 64 63 200 64).mApplyBuckets
                ∧ mkCheckpointRange 64
                    ((mkCatchupRange 64 63 200 64).mLedgers.mFirst - 1)
                    (mkCatchupRange 64 63 200 64).getLast
                  ≠ mkCheckpointRange 64
                      (mkCatchupRange 64 63 200 64).mLedgers.mFirst
                      (mkCatchupRange 64 63 200 64).getLast
             then 1 else 0) :=
  catchup_archive_state_fetch_count 64 63 200 64 (by norm_num) (by norm_num)
    (by norm_num)

/-- Claim C4 counterexample: at frequency 64, last closed ledger 1,
target `2 ^ 32 - 1`, replay window `2 ^ 32 - 65`, bucket restoration is
needed and the verify checkpoint range (63, 63) differs from the apply
checkpoint range (127, 63) — the `uint32_t` wrap of
`checkpointContainingLedger` at the target collapses the verify
range's endpoints — yet `computeCatchupPerformedWork` counts only one
history-archive-state fetch, so the claim's unrestricted iff is
false. -/
theorem catchup_archive_state_fetch_count_cex :
    (mkCatchupRange 64 1 (2 ^ 32 - 1) (2 ^ 32 - 65)).mApplyBuckets = true
    ∧ mkCheckpointRange 64
        ((mkCatchupRange 64 1 (2 ^ 32 - 1) (2 ^ 32 - 65)).mLedgers.mFirst - 1)
        (mkCatchupRange 64 1 (2 ^ 32 - 1) (2 ^ 32 - 65)).getLast
      ≠ mkCheckpointRange 64
          (mkCatchupRange 64 1 (2 ^ 32 - 1) (2 ^ 32 - 65)).mLedgers.mFirst
          (mkCatchupRange 64 1 (2 ^ 32 - 1) (2 ^ 32 - 65)).getLast
    ∧ (computeCatchupPerformedWork 64 1 (2 ^ 32 - 1)
        (2 ^ 32 - 65)).mHistoryArchiveStatesDownloaded = 1
    ∧ ¬ ((computeCatchupPerformedWork 64 1 (2 ^ 32 - 1)
            (2 ^ 32 - 65)).mHistoryArchiveStatesDownloaded
          = 1 + (if (mkCatchupRange 64 1 (2 ^ 32 - 1) (2 ^ 32 - 65)).mApplyBuckets
                    ∧ mkCheckpointRange 64
                        ((mkCatchupRange 64 1 (2 ^ 32 - 1)
                          (2 ^ 32 - 65)).mLedgers.mFirst - 1)
                        (mkCatchupRange 64 1 (2 ^ 32 - 1) (2 ^ 32 - 65)).getLast
                      ≠ mkCheckpointRange 64
                          (mkCatchupRange 64 1 (2 ^ 32 - 1)
                            (2 ^ 32 - 65)).mLedgers.mFirst
                          (mkCatchupRange 64 1 (2 ^ 32 - 1) (2 ^ 32 - 65)).getLast
                 then 1 else 0)) := by
  refine ⟨by decide, by decide, by decide, by decide⟩

/-- Claim C2 witness at concrete bucket sets: after the failed and then
successful confirmation of ledger 64, only ledger 128 remains queued
and both meters read 1. -/
theorem historyPublished_fail_then_success_witness :
    (historyPublished (historyPublished (confirmScenarioState ["a"] ["b"])
        64 ["a"] false) 64 ["a"] true).publishqueue = [(128, ⟨128, ["b"]⟩)]
    ∧ (historyPublished (historyPublished (confirmScenarioState ["a"] ["b"])
        64 ["a"] false) 64 ["a"] true).publishSuccessCount = 1
    ∧ (historyPublished (historyPublished (confirmScenarioState ["a"] ["b"])
        64 ["a"] false) 64 ["a"] true).publishFailureCount = 1 :=
  ⟨(historyPublished_fail_then_success ["a"] ["b"]).2.2.2.2.1,
   (historyPublished_fail_then_success ["a"] ["b"]).2.2.2.2.2.1,
   (historyPublished_fail_then_success ["a"] ["b"]).2.2.2.2.2.2.1⟩
